import Mathlib

/-!
Shallow embedding of the tile38 request controller (package `controller`
and the `geojson.Position` serializer) and proofs about it.

Conventions of the embedding:
* Go `uint64` counters are modelled as `Nat` (the source never gets near
  overflow on these paths; `math.MaxUint64` appears as `maxUint64` below).
* `float64` field values and coordinates are modelled as `ℚ`.
* External collaborator packages (the `glob` matcher, the `where`-clause
  numeric predicate, the geodesic distance) are opaque to the controller.
  They enter the definitions as function parameters, exactly at the call
  sites where the source calls into them.
* Mutation of a struct through a pointer becomes explicit state passing:
  a Go method that mutates `sw` and returns `bool` becomes a Lean function
  returning `ScanWriter × Bool`.
-/

namespace Tile38

/-! ## Command router (`controller.go`, `handleInputCommand`) -/

/-- Output serialization mode of a message (`server.JSON` / `server.RESP`). -/
inductive OutputType where
  | json
  | resp
deriving DecidableEq

/-- Connection type of a message (`server.Native` / `server.RESP` /
`server.HTTP` / `server.WebSocket`). -/
inductive ConnType where
  | native
  | respConn
  | http
  | websocket
deriving DecidableEq

/-- The slice of `server.Message` the router consults: the lowercased
command, the raw token values (`msg.Values`, command itself at index 0),
the per-message auth token (`msg.Auth`), output and connection types. -/
structure Message where
  command : String
  values : List String
  auth : String
  outputType : OutputType
  connType : ConnType
deriving DecidableEq

/-- The part of the config store the router reads: `requirePass()`,
`followHost()` and `readOnly()`. -/
structure Config where
  requirePass : String
  followHost : String
  readOnly : Bool
deriving DecidableEq

/-- Connection state the router reads and writes: `conn.Authenticated`. -/
structure ConnState where
  authenticated : Bool
deriving DecidableEq

/-- Which lock `handleInputCommand` acquires before dispatching. -/
inductive LockKind where
  | nolock
  | rlock
  | wlock
deriving DecidableEq

/-- What the router writes back to the client, abstracted from the
JSON/RESP serialization. `value` stands for a serialized non-error handler
result, `goLive` for the propagated "going live" pseudo-error. -/
inductive Reply where
  | pong
  | okSimple
  | err (msg : String)
  | value
  | goLive
deriving DecidableEq

/-- Outcome of `c.command(msg, w, conn)` as the router observes it:
a non-error response with nil error (`ok`), an error-typed response
(`errValue`), the "going live" error, or any other non-nil error. -/
inductive HandlerOutcome where
  | ok
  | errValue (s : String)
  | goingLive
  | failure (s : String)
deriving DecidableEq

/-- Outcome of `c.writeAOF`: success, an `errAOFHook` (endpoint failure,
surfaced to the client), or any other error (fatal, `log.Fatal`). -/
inductive AOFOutcome where
  | ok
  | hookErr (s : String)
  | fatal
deriving DecidableEq

/-- Observable effects of one `handleInputCommand` invocation.
`aofAttempted` is true exactly when the router reached the
`c.writeAOF(resp.ArrayValue(msg.Values), &d)` call; the hook walk and the
live broadcast happen inside that call, so they are gated identically. -/
structure RouterResult where
  reply : Reply
  authenticatedAfter : Bool
  lock : LockKind
  handlerInvoked : Bool
  aofAttempted : Bool
  fatal : Bool
deriving DecidableEq

/-- The write-class commands of the `switch msg.Command` in
`handleInputCommand` (`controller.go:493`). Note: the source lists
`fset` and `jset` but not `jdel`. -/
def writeCommands : List String :=
  ["set", "del", "drop", "fset", "flushdb", "sethook", "pdelhook", "delhook",
   "expire", "persist", "jset", "pdel"]

/-- The read-class commands of the same switch (`controller.go:515`). -/
def readCommands : List String :=
  ["get", "keys", "scan", "nearby", "within", "intersects", "hooks", "search",
   "ttl", "bounds", "server", "info", "type", "jget", "evalro", "evalrosha"]

/-- Lock selection and pre-handler gating of `handleInputCommand`
(`controller.go:488-551`): the lock taken, whether the command is in the
write class (`var write bool`), and the rejection error, if any, produced
after the lock is acquired and before the handler runs. -/
structure Classification where
  lock : LockKind
  write : Bool
  gate : Option String
deriving DecidableEq

/-- The `switch msg.Command` lock-selection of `handleInputCommand`.
The Go `switch` matches cases exactly and falls to `default` (a shared
lock) otherwise; case order in the source is irrelevant. -/
def classify (cfg : Config) (fcuponce : Bool) (cmd : String) : Classification :=
  if cmd ∈ writeCommands then
    if cfg.followHost ≠ "" then ⟨.wlock, true, some ("not the leader")⟩
    else if cfg.readOnly then ⟨.wlock, true, some ("read only")⟩
    else ⟨.wlock, true, none⟩
  else if cmd = "eval" ∨ cmd = "evalsha" then
    if cfg.followHost ≠ "" then ⟨.wlock, false, some ("not the leader")⟩
    else if cfg.readOnly then ⟨.wlock, false, some ("read only")⟩
    else ⟨.wlock, false, none⟩
  else if cmd ∈ readCommands then
    if cfg.followHost ≠ "" ∧ ¬fcuponce then ⟨.rlock, false, some ("catching up to leader")⟩
    else ⟨.rlock, false, none⟩
  else if cmd = "follow" ∨ cmd = "readonly" ∨ cmd = "config" then ⟨.wlock, false, none⟩
  else if cmd = "output" ∨ cmd = "echo" then ⟨.nolock, false, none⟩
  else if cmd = "massinsert" then ⟨.wlock, false, none⟩
  else if cmd = "sleep" then ⟨.rlock, false, none⟩
  else if cmd = "shutdown" then ⟨.wlock, false, none⟩
  else if cmd = "aofshrink" then ⟨.rlock, false, none⟩
  else if cmd = "client" then ⟨.wlock, false, none⟩
  else if cmd = "evalna" ∨ cmd = "evalnasha" then ⟨.nolock, false, none⟩
  else ⟨.rlock, false, none⟩

/-- Model of Go's `strings.TrimSpace` (an external stdlib call): drop
whitespace characters from both ends. Defined structurally so that it
computes inside the kernel. -/
def trimSpace (s : String) : String :=
  String.mk (((s.toList.dropWhile Char.isWhitespace).reverse.dropWhile
    Char.isWhitespace).reverse)

/-- The password `handleInputCommand` compares against `requirepass`:
the per-message auth token if present, else the first argument of the
command (`msg.Values[1]`, empty when absent). -/
def authPassword (msg : Message) : String :=
  if msg.auth ≠ "" then msg.auth else msg.values.getD 1 ""

/-- The authentication gate of `handleInputCommand`
(`controller.go:461-487`), run after the ping/echo short-circuit and
before lock selection. `Sum.inl` is an early return to the client,
`Sum.inr` the authenticated-flag with which processing continues. -/
def authGate (cfg : Config) (conn : ConnState) (msg : Message) :
    Sum RouterResult Bool :=
  if ¬conn.authenticated ∨ msg.command = "auth" then
    if cfg.requirePass ≠ "" then
      if msg.command ≠ "auth" ∧ msg.auth = "" then
        Sum.inl ⟨.err ("authentication required"), conn.authenticated, .nolock, false, false, false⟩
      else if cfg.requirePass ≠ trimSpace (authPassword msg) then
        Sum.inl ⟨.err ("invalid password"), conn.authenticated, .nolock, false, false, false⟩
      else if msg.connType ≠ .http then
        Sum.inl ⟨.okSimple, true, .nolock, false, false, false⟩
      else
        Sum.inr true
    else if msg.command = "auth" then
      Sum.inl ⟨.err ("invalid password"), conn.authenticated, .nolock, false, false, false⟩
    else
      Sum.inr conn.authenticated
  else
    Sum.inr conn.authenticated

/-- Post-handler flow of `handleInputCommand` (`controller.go:553-585`):
an error-typed response or a non-nil handler error is written to the
client and nothing else happens; otherwise, for write-class commands,
`c.writeAOF` is invoked, whose own failure is either surfaced
(`errAOFHook`) or fatal. -/
def postHandler (authed : Bool) (cls : Classification)
    (h : HandlerOutcome) (a : AOFOutcome) : RouterResult :=
  match h with
  | .errValue s => ⟨.err s, authed, cls.lock, true, false, false⟩
  | .goingLive => ⟨.goLive, authed, cls.lock, true, false, false⟩
  | .failure s => ⟨.err s, authed, cls.lock, true, false, false⟩
  | .ok =>
    if cls.write then
      match a with
      | .ok => ⟨.value, authed, cls.lock, true, true, false⟩
      | .hookErr s => ⟨.err s, authed, cls.lock, true, true, false⟩
      | .fatal => ⟨.value, authed, cls.lock, true, true, true⟩
    else ⟨.value, authed, cls.lock, true, false, false⟩

/-- `handleInputCommand` (`controller.go:373-586`): ping/echo
short-circuit, authentication gate, lock selection with leader/read-only/
catch-up gating, handler dispatch, then AOF write for write-class
commands. The handler and AOF outcomes are inputs, since the handlers and
`writeAOF` are outside this routing layer. -/
def handleInputCommand (cfg : Config) (fcuponce : Bool) (conn : ConnState)
    (msg : Message) (h : HandlerOutcome) (a : AOFOutcome) : RouterResult :=
  if msg.command = "ping" ∨ msg.command = "echo" then
    ⟨.pong, conn.authenticated, .nolock, false, false, false⟩
  else
    match authGate cfg conn msg with
    | Sum.inl r => r
    | Sum.inr authed =>
      match (classify cfg fcuponce msg.command).gate with
      | some e =>
        ⟨.err e, authed, (classify cfg fcuponce msg.command).lock, false, false, false⟩
      | none => postHandler authed (classify cfg fcuponce msg.command) h a

/-! ## AOF shrink entry guard (`aofshrink`) -/

/-- The controller state `aofshrink` consults before doing any work:
whether the live AOF is open (`c.aof != nil`), the `shrinking` flag, the
in-memory `shrinklog`, and all other controller state (`rest`), which the
guard never touches. -/
structure ShrinkController (σ : Type) where
  aofOpen : Bool
  shrinking : Bool
  shrinklog : List (List String)
  rest : σ
deriving DecidableEq

/-- `aofshrink` (part_001:593-614): return immediately when the AOF is
nil; under the lock, return immediately when `shrinking` is already true;
otherwise set `shrinking` and clear the log, run the rewrite body
(abstracted as `work`), and on exit clear `shrinking` and the log. -/
def aofshrink {σ : Type} (work : ShrinkController σ → ShrinkController σ)
    (c : ShrinkController σ) : ShrinkController σ :=
  if ¬c.aofOpen then c
  else if c.shrinking then c
  else
    let c1 : ShrinkController σ := { c with shrinking := true, shrinklog := [] }
    let c2 := work c1
    { c2 with shrinking := false, shrinklog := [] }

/-! ## Claims C1-C4 -/

/-- C1. The claim places JDEL in the write class, but the source's
write-command case list (`controller.go:493`) omits `"jdel"` (while
containing `"jset"` and `"fset"`), so `jdel` falls into the default
read-lock branch: on a server configured to follow a leader (even before
catch-up) or in read-only mode, a JDEL is neither rejected with
"not the leader" nor with "read only"; it runs under the shared lock and,
because `write` stays false, its mutation is never appended to the AOF. -/
theorem c1_jdel_missing_from_write_class :
    (handleInputCommand ⟨"", "leader.local:9851", false⟩ false ⟨true⟩
        ⟨"jdel", ["jdel", "fleet", "truck1", "props.speed"], "", .json, .native⟩
        .ok .ok).handlerInvoked = true ∧
    (handleInputCommand ⟨"", "leader.local:9851", false⟩ false ⟨true⟩
        ⟨"jdel", ["jdel", "fleet", "truck1", "props.speed"], "", .json, .native⟩
        .ok .ok).lock = LockKind.rlock ∧
    (handleInputCommand ⟨"", "leader.local:9851", false⟩ false ⟨true⟩
        ⟨"jdel", ["jdel", "fleet", "truck1", "props.speed"], "", .json, .native⟩
        .ok .ok).reply ≠ Reply.err ("not the leader") ∧
    (handleInputCommand ⟨"", "", true⟩ true ⟨true⟩
        ⟨"jdel", ["jdel", "fleet", "truck1", "props.speed"], "", .json, .native⟩
        .ok .ok).reply ≠ Reply.err ("read only") ∧
    (handleInputCommand ⟨"", "", true⟩ true ⟨true⟩
        ⟨"jdel", ["jdel", "fleet", "truck1", "props.speed"], "", .json, .native⟩
        .ok .ok).aofAttempted = false ∧
    "jdel" ∉ writeCommands := by
  refine ⟨rfl, rfl, ?_, ?_, rfl, by decide⟩ <;> decide

/-- Any early return of the authentication gate happens before the
handler dispatch and before the AOF write. -/
theorem authGate_inl (cfg : Config) (conn : ConnState) (msg : Message)
    (r : RouterResult) (h : authGate cfg conn msg = Sum.inl r) :
    r.handlerInvoked = false ∧ r.aofAttempted = false := by
  unfold authGate at h
  repeat' split at h
  all_goals first
    | (cases h; exact ⟨rfl, rfl⟩)
    | cases h

/-- The handler is always invoked when `postHandler` runs. -/
theorem postHandler_handlerInvoked (authed : Bool) (cls : Classification)
    (h : HandlerOutcome) (a : AOFOutcome) :
    (postHandler authed cls h a).handlerInvoked = true := by
  cases h <;> unfold postHandler <;> try rfl
  by_cases hw : cls.write = true
  · rw [if_pos hw]; cases a <;> rfl
  · rw [if_neg hw]

/-- `postHandler` reaches `writeAOF` only on a successful handler. -/
theorem postHandler_aofAttempted (authed : Bool) (cls : Classification)
    (h : HandlerOutcome) (a : AOFOutcome)
    (haof : (postHandler authed cls h a).aofAttempted = true) :
    h = HandlerOutcome.ok := by
  cases h with
  | ok => rfl
  | errValue s => cases haof
  | goingLive => cases haof
  | failure s => cases haof

/-- C2. For a write-class command that got past the gates, an error-typed
response or a non-nil handler error is written to the client and the
router never reaches `c.writeAOF` (hence neither the AOF append nor the
hook walk and live broadcast inside it); conversely `writeAOF` is reached
only when the handler returned success. -/
theorem c2_no_aof_on_handler_error (cfg : Config) (fcuponce : Bool)
    (conn : ConnState) (msg : Message) (h : HandlerOutcome) (a : AOFOutcome)
    (s : String) (hw : msg.command ∈ writeCommands) :
    ((h = .errValue s ∨ h = .failure s) →
      (handleInputCommand cfg fcuponce conn msg h a).aofAttempted = false ∧
      ((handleInputCommand cfg fcuponce conn msg h a).handlerInvoked = true →
        (handleInputCommand cfg fcuponce conn msg h a).reply = Reply.err s)) ∧
    ((handleInputCommand cfg fcuponce conn msg h a).aofAttempted = true →
      h = HandlerOutcome.ok ∧
      (handleInputCommand cfg fcuponce conn msg h a).handlerInvoked = true) := by
  have hping : ¬(msg.command = "ping" ∨ msg.command = "echo") := by
    rintro (hc | hc) <;> rw [hc] at hw <;> revert hw <;> decide
  unfold handleInputCommand
  rw [if_neg hping]
  cases hag : authGate cfg conn msg with
  | inl r =>
    obtain ⟨hr1, hr2⟩ := authGate_inl cfg conn msg r hag
    constructor
    · rintro (rfl | rfl) <;>
        exact ⟨hr2, by intro hinv; rw [hr1] at hinv; cases hinv⟩
    · intro habs; rw [hr2] at habs; cases habs
  | inr authed =>
    cases hgate : (classify cfg fcuponce msg.command).gate with
    | some e =>
      constructor
      · rintro (rfl | rfl) <;> simp [hgate]
      · intro habs; simp [hgate] at habs
    | none =>
      constructor
      · rintro (rfl | rfl) <;> simp [hgate, postHandler]
      · intro haof
        simp only [hgate] at haof ⊢
        exact ⟨postHandler_aofAttempted _ _ _ _ haof,
          postHandler_handlerInvoked _ _ _ _⟩

/-- Closing the hypotheses of `c2_no_aof_on_handler_error` at a concrete
failing SET: the error is surfaced and `writeAOF` is not reached. -/
theorem c2_no_aof_on_handler_error_witness :
    "set" ∈ writeCommands ∧
    (handleInputCommand ⟨"", "", false⟩ true ⟨true⟩
        ⟨"set", ["set", "fleet", "truck1"], "", .resp, .respConn⟩
        (.failure ("wrong number of arguments")) .ok).aofAttempted = false := by
  refine ⟨by decide, ?_⟩
  exact ((c2_no_aof_on_handler_error ⟨"", "", false⟩ true ⟨true⟩
      ⟨"set", ["set", "fleet", "truck1"], "", .resp, .respConn⟩
      (.failure ("wrong number of arguments")) .ok ("wrong number of arguments")
      (by decide)).1 (Or.inr rfl)).1

/-- C3 counterexample. The claim states that with `requirepass` set,
every command other than AUTH on an unauthenticated connection without a
per-message auth token is answered with "authentication required"; but
the ping/echo short-circuit (`controller.go:429`) runs before the
authentication gate, so an unauthenticated PING is answered with pong. -/
theorem c3_counterexample_ping_bypasses_auth :
    (handleInputCommand ⟨"secret", "", false⟩ true ⟨false⟩
        ⟨"ping", ["ping"], "", .json, .native⟩ .ok .ok).reply = Reply.pong ∧
    (handleInputCommand ⟨"secret", "", false⟩ true ⟨false⟩
        ⟨"ping", ["ping"], "", .json, .native⟩ .ok .ok).reply ≠
      Reply.err ("authentication required") ∧
    "ping" ≠ "auth" := by
  exact ⟨rfl, by decide, by decide⟩

/-- C3 (amended: PING and ECHO are also exempt, since they short-circuit
before the authentication gate). With `requirepass` non-empty, on an
unauthenticated connection: any command other than AUTH, PING, ECHO with
no per-message auth token is answered with "authentication required" and
the handler is never invoked; and whenever a password is presented (AUTH
command or auth token) and it mismatches, the reply is "invalid password"
and the connection stays unauthenticated, again without invoking the
handler. -/
theorem c3_auth_gate (cfg : Config) (fcuponce : Bool) (conn : ConnState)
    (msg : Message) (h : HandlerOutcome) (a : AOFOutcome)
    (hpass : cfg.requirePass ≠ "") (hauth : conn.authenticated = false)
    (hping : msg.command ≠ "ping") (hecho : msg.command ≠ "echo") :
    (msg.command ≠ "auth" → msg.auth = "" →
      (handleInputCommand cfg fcuponce conn msg h a).reply =
          Reply.err ("authentication required") ∧
      (handleInputCommand cfg fcuponce conn msg h a).handlerInvoked = false ∧
      (handleInputCommand cfg fcuponce conn msg h a).authenticatedAfter = false) ∧
    ((msg.command = "auth" ∨ msg.auth ≠ "") →
      cfg.requirePass ≠ trimSpace (authPassword msg) →
      (handleInputCommand cfg fcuponce conn msg h a).reply =
          Reply.err ("invalid password") ∧
      (handleInputCommand cfg fcuponce conn msg h a).handlerInvoked = false ∧
      (handleInputCommand cfg fcuponce conn msg h a).authenticatedAfter = false) := by
  have hpe : ¬(msg.command = "ping" ∨ msg.command = "echo") := by
    rintro (hc | hc) <;> [exact hping hc; exact hecho hc]
  have hna : ¬conn.authenticated = true ∨ msg.command = "auth" :=
    Or.inl (by rw [hauth]; exact Bool.false_ne_true)
  constructor
  · intro hnotauth htok
    unfold handleInputCommand authGate
    rw [if_neg hpe, if_pos hna, if_pos hpass, if_pos ⟨hnotauth, htok⟩]
    exact ⟨rfl, rfl, hauth⟩
  · intro hpres hmis
    have hgate : ¬(msg.command ≠ "auth" ∧ msg.auth = "") := by
      rcases hpres with hc | hc
      · intro hk; exact hk.1 hc
      · intro hk; exact hc hk.2
    unfold handleInputCommand authGate
    rw [if_neg hpe, if_pos hna, if_pos hpass, if_neg hgate, if_pos hmis]
    exact ⟨rfl, rfl, hauth⟩

/-- Closing the hypotheses of `c3_auth_gate` at concrete inputs: a GET
without credentials is refused with "authentication required", and an
AUTH with the wrong password gets "invalid password" while the connection
stays unauthenticated. -/
theorem c3_auth_gate_witness :
    (handleInputCommand ⟨"secret", "", false⟩ true ⟨false⟩
        ⟨"get", ["get", "fleet", "truck1"], "", .json, .native⟩ .ok .ok).reply =
      Reply.err ("authentication required") ∧
    (handleInputCommand ⟨"secret", "", false⟩ true ⟨false⟩
        ⟨"auth", ["auth", "wrong"], "", .json, .native⟩ .ok .ok).reply =
      Reply.err ("invalid password") ∧
    (handleInputCommand ⟨"secret", "", false⟩ true ⟨false⟩
        ⟨"auth", ["auth", "wrong"], "", .json, .native⟩ .ok .ok).authenticatedAfter
      = false := by
  refine ⟨?_, ?_, ?_⟩
  · exact ((c3_auth_gate ⟨"secret", "", false⟩ true ⟨false⟩
      ⟨"get", ["get", "fleet", "truck1"], "", .json, .native⟩ .ok .ok
      (by decide) rfl (by decide) (by decide)).1 (by decide) rfl).1
  · exact ((c3_auth_gate ⟨"secret", "", false⟩ true ⟨false⟩
      ⟨"auth", ["auth", "wrong"], "", .json, .native⟩ .ok .ok
      (by decide) rfl (by decide) (by decide)).2 (Or.inl rfl) (by decide)).1
  · exact ((c3_auth_gate ⟨"secret", "", false⟩ true ⟨false⟩
      ⟨"auth", ["auth", "wrong"], "", .json, .native⟩ .ok .ok
      (by decide) rfl (by decide) (by decide)).2 (Or.inl rfl) (by decide)).2.2

/-- C4. Invoking `aofshrink` while the `shrinking` flag is already set
returns without running any of the rewrite body: the whole controller
state (shrink log, live AOF handle, and everything in `rest`) is exactly
what it was. -/
theorem c4_aofshrink_noop_when_shrinking {σ : Type}
    (work : ShrinkController σ → ShrinkController σ) (c : ShrinkController σ)
    (hs : c.shrinking = true) : aofshrink work c = c := by
  unfold aofshrink
  by_cases hopen : c.aofOpen = true
  · rw [if_neg (by simp [hopen]), if_pos hs]
  · rw [if_pos (by simp [Bool.not_eq_true] at hopen ⊢; exact hopen)]

/-- Closing the hypothesis of `c4_aofshrink_noop_when_shrinking` at a
concrete state with a body that would otherwise change the log. -/
theorem c4_aofshrink_noop_when_shrinking_witness :
    aofshrink (fun c => { c with shrinklog := [["set", "fleet", "truck1"]] })
        (ShrinkController.mk true true [] (37 : Nat)) =
      ShrinkController.mk true true [] (37 : Nat) :=
  c4_aofshrink_noop_when_shrinking _ _ rfl

/-! ## Scan writer (part_001, `scanWriter`) -/

/-- The output selection of a scan (`outputT`). -/
inductive OutputT where
  | unknown
  | ids
  | objects
  | count
  | points
  | hashes
  | bounds
deriving DecidableEq

/-- The slice of a `geojson.Object` the scan writer consults: its text
form (`o.String()`) and its calculated point (`o.CalculatedPoint()`). -/
structure GeoObject where
  str : String
  pointX : ℚ
  pointY : ℚ
  pointZ : ℚ
deriving DecidableEq

/-- A `WHERE field op value` clause (`whereT`). Its numeric predicate
(`where.match`, parsed elsewhere) is opaque to the writer and kept as a
function. -/
structure WhereT where
  field : String
  matchf : ℚ → Bool

/-- A `WHEREIN field v…` clause (`whereinT`), predicate kept opaque. -/
structure WhereinT where
  field : String
  matchf : ℚ → Bool

/-- A `WHEREEVAL script …` clause (`whereevalT`); its Lua predicate takes
the named field values and is kept opaque. -/
structure WhereevalT where
  matchf : List (String × ℚ) → Bool

/-- `limitItems`: default page size. -/
def limitItems : Nat := 100

/-- `math.MaxUint64`, the "unlimited" page size used for COUNT. -/
def maxUint64 : Nat := 2 ^ 64 - 1

/-- Association-list lookup (model of a Go map read: `v, ok := m[k]`). -/
def assocGet {α : Type} : List (String × α) → String → Option α
  | [], _ => none
  | (k, v) :: rest, key => if k = key then some v else assocGet rest key

/-- The scan writer state (`scanWriter`). `fmap`/`farr` are the field
registry of the target collection. `values` abstracts the emission
buffer: it records the ids of the emitted records, standing for both the
JSON buffer and the RESP `values` slice. -/
structure ScanWriter where
  fmap : List (String × Nat)
  farr : List String
  fvals : List ℚ
  output : OutputT
  wheres : List WhereT
  whereins : List WhereinT
  whereevals : List WhereevalT
  numberItems : Nat
  nofields : Bool
  cursor : Nat
  limit : Nat
  hitLimit : Bool
  once : Bool
  count : Nat
  precision : Nat
  globPattern : String
  globEverything : Bool
  globSingle : Bool
  fullFields : Bool
  values : List String
  matchValues : Bool

instance : Inhabited ScanWriter :=
  ⟨⟨[], [], [], .unknown, [], [], [], 0, false, 0, 0, false, false, 0, 0, "",
    false, false, false, [], false⟩⟩

/-- Arguments to one `writeObject` call (`ScanWriterParams`); `noLock`
only affects mutex usage and is not modelled. -/
structure ScanWriterParams where
  id : String
  o : GeoObject
  fields : List ℚ
  distance : ℚ
  ignoreGlobMatch : Bool

/-- `newScanWriter` (part_001:70-118): rejects an unknown output type;
a zero limit defaults to `math.MaxUint64` for COUNT and to 100
otherwise; a `*` or empty glob matches everything; a non-glob pattern
switches to single-id equality. The collection's field registry is read
when the collection exists (`isGlobFn` stands for `glob.IsGlob`). -/
def newScanWriter (fmapC : List (String × Nat)) (farrC : List String)
    (colExists : Bool) (isGlobFn : String → Bool) (output : OutputT)
    (precision : Nat) (globPattern : String) (matchValues : Bool)
    (cursor limit : Nat) (wheres : List WhereT) (whereins : List WhereinT)
    (whereevals : List WhereevalT) (nofields : Bool) : Option ScanWriter :=
  match output with
  | .unknown => none
  | _ =>
    let limit := if limit = 0 then
        (if output = OutputT.count then maxUint64 else limitItems)
      else limit
    let globEverything := globPattern = "*" ∨ globPattern = ""
    let globSingle := ¬(globPattern = "*" ∨ globPattern = "") ∧ ¬isGlobFn globPattern
    let fmap := if colExists then fmapC else []
    let farr := if colExists then farrC else []
    some {
      fmap := fmap
      farr := farr
      fvals := List.replicate farr.length 0
      output := output
      wheres := wheres
      whereins := whereins
      whereevals := whereevals
      numberItems := 0
      nofields := nofields
      cursor := cursor
      limit := limit
      hitLimit := false
      once := false
      count := 0
      precision := precision
      globPattern := globPattern
      globEverything := globEverything
      globSingle := globSingle
      fullFields := false
      values := []
      matchValues := matchValues }

/-- `scanWriter.hasFieldsOutput`. -/
def ScanWriter.hasFieldsOutput (sw : ScanWriter) : Bool :=
  match sw.output with
  | .objects | .points | .hashes | .bounds => !sw.nofields
  | _ => false

/-- The value a `WHERE`/`WHEREIN` clause reads for a named field: the
indexed entry of the record's sparse field array when the name is
registered and in range, else 0. -/
def fieldValue (fmap : List (String × Nat)) (fields : List ℚ)
    (name : String) : ℚ :=
  match assocGet fmap name with
  | some idx => fields.getD idx 0
  | none => 0

/-- The named field values handed to a `WHEREEVAL` predicate
(`fieldsWithNames`). -/
def fieldsWithNames (fmap : List (String × Nat)) (fields : List ℚ) :
    List (String × ℚ) :=
  fmap.map (fun fi => (fi.1, fields.getD fi.2 0))

/-- `scanWriter.fieldMatch` (part_001:192-296). Returns the per-record
field view `nfields`, the (possibly refilled) scratch `fvals`, and
whether every `WHERE`/`WHEREIN`/`WHEREEVAL` clause passed. The source's
two branches check identical predicates; the second additionally refills
the scratch array `sw.fvals` from the record before checking, which is
modelled by returning the refilled list. The pseudo-field `z` reads the
object's calculated-point Z. -/
def fieldMatch (sw : ScanWriter) (fields : List ℚ) (o : GeoObject) :
    List ℚ × List ℚ × Bool :=
  if ¬sw.hasFieldsOutput ∨ sw.fullFields then
    let ok :=
      sw.wheres.all (fun w =>
        if w.field = "z" then w.matchf o.pointZ
        else w.matchf (fieldValue sw.fmap fields w.field)) &&
      sw.whereins.all (fun w => w.matchf (fieldValue sw.fmap fields w.field)) &&
      sw.whereevals.all (fun w => w.matchf (fieldsWithNames sw.fmap fields))
    (sw.fvals, sw.fvals, ok)
  else
    let nf := (List.range sw.farr.length).map (fun idx => fields.getD idx 0)
    let ok :=
      sw.wheres.all (fun w =>
        if w.field = "z" then w.matchf o.pointZ
        else w.matchf (fieldValue sw.fmap nf w.field)) &&
      sw.whereins.all (fun w => w.matchf (fieldValue sw.fmap nf w.field)) &&
      sw.whereevals.all (fun w => w.matchf (fieldsWithNames sw.fmap fields))
    (nf, nf, ok)

/-- `scanWriter.globMatch` (part_001:298-318): returns (match,
keep-going). `matchFn` stands for `glob.Match` on (pattern, value). -/
def globMatch (matchFn : String → String → Bool) (sw : ScanWriter)
    (id : String) (o : GeoObject) : Bool × Bool :=
  if ¬sw.globEverything then
    if sw.globSingle then
      if sw.globPattern ≠ id then (false, true) else (true, false)
    else
      let val := if sw.matchValues then o.str else id
      if ¬matchFn sw.globPattern val then (false, true) else (true, true)
  else (true, true)

/-- `scanWriter.writeObject` (part_001:321-479): glob filter, field
filter, matched-count/cursor bookkeeping, COUNT short-circuit, emission,
page-limit bookkeeping. Returns the new state and the keep-going flag
handed back to the iterator. -/
def writeObject (matchFn : String → String → Bool) (sw : ScanWriter)
    (opts : ScanWriterParams) : ScanWriter × Bool :=
  let gm := if opts.ignoreGlobMatch then (true, true)
    else globMatch matchFn sw opts.id opts.o
  if gm.1 = false then (sw, true)
  else
    let fm := fieldMatch sw opts.fields opts.o
    let sw := { sw with fvals := fm.2.1 }
    if fm.2.2 = false then (sw, true)
    else
      let sw := { sw with count := sw.count + 1 }
      if sw.count ≤ sw.cursor then (sw, true)
      else if sw.output = OutputT.count then (sw, decide (sw.count < sw.limit))
      else
        let sw := { sw with once := true, values := sw.values ++ [opts.id] }
        let sw := { sw with numberItems := sw.numberItems + 1 }
        if sw.numberItems = sw.limit then ({ sw with hitLimit := true }, false)
        else (sw, gm.2)

/-- Driving a collection iterator over the scan writer: feed candidates
in iteration order, stopping when `writeObject` returns false (models
`col.Scan`/`col.ScanRange`/`col.Within`… invoking the closure). -/
def processAll (matchFn : String → String → Bool) (sw : ScanWriter) :
    List ScanWriterParams → ScanWriter
  | [] => sw
  | c :: rest =>
    let r := writeObject matchFn sw c
    if r.2 then processAll matchFn r.1 rest else r.1

/-- The cursor emitted by `scanWriter.writeFoot` (part_001:162-190), in
both the JSON and the RESP framings. -/
def footCursor (sw : ScanWriter) : Nat :=
  if sw.hitLimit then sw.cursor + sw.numberItems else 0

theorem writeObject_cursor (matchFn : String → String → Bool)
    (sw : ScanWriter) (opts : ScanWriterParams) :
    (writeObject matchFn sw opts).1.cursor = sw.cursor := by
  simp only [writeObject]
  repeat' split
  all_goals rfl

theorem writeObject_items_values (matchFn : String → String → Bool)
    (sw : ScanWriter) (opts : ScanWriterParams)
    (hinv : sw.numberItems = sw.values.length) :
    (writeObject matchFn sw opts).1.numberItems =
      (writeObject matchFn sw opts).1.values.length := by
  simp only [writeObject]
  repeat' split
  all_goals simp [hinv]

theorem processAll_cursor (matchFn : String → String → Bool)
    (cands : List ScanWriterParams) (sw : ScanWriter) :
    (processAll matchFn sw cands).cursor = sw.cursor := by
  induction cands generalizing sw with
  | nil => rfl
  | cons c rest ih =>
    simp only [processAll]
    split
    · rw [ih]; exact writeObject_cursor matchFn sw c
    · exact writeObject_cursor matchFn sw c

theorem processAll_items_values (matchFn : String → String → Bool)
    (cands : List ScanWriterParams) (sw : ScanWriter)
    (hinv : sw.numberItems = sw.values.length) :
    (processAll matchFn sw cands).numberItems =
      (processAll matchFn sw cands).values.length := by
  induction cands generalizing sw with
  | nil => exact hinv
  | cons c rest ih =>
    simp only [processAll]
    split
    · exact ih _ (writeObject_items_values matchFn sw c hinv)
    · exact writeObject_items_values matchFn sw c hinv

/-- C5. (a) A zero (unspecified) limit defaults to the page size 100,
or to `math.MaxUint64` (unlimited) for COUNT output. (b) After feeding
any candidate stream to a fresh scan writer, the cursor that `writeFoot`
emits is the input cursor plus the number of emitted items when the page
limit was hit, and 0 otherwise. -/
theorem c5_pagination (fmapC : List (String × Nat)) (farrC : List String)
    (colExists : Bool) (isGlobFn : String → Bool) (output : OutputT)
    (precision : Nat) (globPattern : String) (matchValues : Bool)
    (cursor : Nat) (wheres : List WhereT) (whereins : List WhereinT)
    (whereevals : List WhereevalT) (nofields : Bool)
    (matchFn : String → String → Bool) (cands : List ScanWriterParams) :
    (output ≠ OutputT.unknown →
      (newScanWriter fmapC farrC colExists isGlobFn output precision
          globPattern matchValues cursor 0 wheres whereins whereevals
          nofields).map ScanWriter.limit =
        some (if output = OutputT.count then maxUint64 else 100)) ∧
    (∀ (limit : Nat) (sw0 : ScanWriter),
      newScanWriter fmapC farrC colExists isGlobFn output precision
          globPattern matchValues cursor limit wheres whereins whereevals
          nofields = some sw0 →
      footCursor (processAll matchFn sw0 cands) =
        if (processAll matchFn sw0 cands).hitLimit then
          cursor + (processAll matchFn sw0 cands).values.length
        else 0) := by
  constructor
  · intro hout
    cases output
    case unknown => exact absurd rfl hout
    all_goals simp [newScanWriter, limitItems]
  · intro limit sw0 hsw
    have hc : sw0.cursor = cursor ∧ sw0.numberItems = 0 ∧ sw0.values = [] := by
      cases output <;> simp [newScanWriter] at hsw <;>
        (rw [← hsw]; exact ⟨rfl, rfl, rfl⟩)
    unfold footCursor
    rw [processAll_cursor, hc.1,
      ← processAll_items_values matchFn cands sw0 (by rw [hc.2.1, hc.2.2]; rfl)]

/-- Closing the hypotheses of `c5_pagination` at a concrete scan: three
candidates, limit 2, trivial filters; the page limit is hit after two
emissions and the emitted cursor is `cursor + 2 = 7`. -/
theorem c5_pagination_witness :
    (OutputT.ids ≠ OutputT.unknown) ∧
    newScanWriter [] [] true (fun _ => false) OutputT.ids 0 "*" false 5 2
        [] [] [] false =
      some (newScanWriter [] [] true (fun _ => false) OutputT.ids 0 "*" false
        5 2 [] [] [] false).get! ∧
    footCursor (processAll (fun _ _ => true)
        (newScanWriter [] [] true (fun _ => false) OutputT.ids 0 "*" false 5 2
          [] [] [] false).get!
        [⟨"a", ⟨"", 0, 0, 0⟩, [], 0, false⟩, ⟨"b", ⟨"", 0, 0, 0⟩, [], 0, false⟩,
         ⟨"c", ⟨"", 0, 0, 0⟩, [], 0, false⟩]) =
      if (processAll (fun _ _ => true)
          (newScanWriter [] [] true (fun _ => false) OutputT.ids 0 "*" false 5 2
            [] [] [] false).get!
          [⟨"a", ⟨"", 0, 0, 0⟩, [], 0, false⟩, ⟨"b", ⟨"", 0, 0, 0⟩, [], 0, false⟩,
           ⟨"c", ⟨"", 0, 0, 0⟩, [], 0, false⟩]).hitLimit then
        5 + (processAll (fun _ _ => true)
          (newScanWriter [] [] true (fun _ => false) OutputT.ids 0 "*" false 5 2
            [] [] [] false).get!
          [⟨"a", ⟨"", 0, 0, 0⟩, [], 0, false⟩, ⟨"b", ⟨"", 0, 0, 0⟩, [], 0, false⟩,
           ⟨"c", ⟨"", 0, 0, 0⟩, [], 0, false⟩]).values.length
      else 0 :=
  ⟨by decide, rfl,
    (c5_pagination [] [] true (fun _ => false) OutputT.ids 0 "*" false 5
      [] [] [] false (fun _ _ => true)
      [⟨"a", ⟨"", 0, 0, 0⟩, [], 0, false⟩, ⟨"b", ⟨"", 0, 0, 0⟩, [], 0, false⟩,
       ⟨"c", ⟨"", 0, 0, 0⟩, [], 0, false⟩]).2 2 _ rfl⟩

/-- C6. A record that fails the glob match or any
`WHERE`/`WHEREIN`/`WHEREEVAL` predicate is skipped: the matched count,
the emission buffer, the page-limit counter and the limit flag are all
unchanged (so the record consumes neither the cursor's skip budget,
which compares `count` to `cursor`, nor the page-limit budget, which
compares `numberItems` to `limit`), and iteration continues. -/
theorem c6_failed_record_skipped (matchFn : String → String → Bool)
    (sw : ScanWriter) (opts : ScanWriterParams)
    (hfail :
      (opts.ignoreGlobMatch = false ∧
        (globMatch matchFn sw opts.id opts.o).1 = false) ∨
      (fieldMatch sw opts.fields opts.o).2.2 = false) :
    (writeObject matchFn sw opts).2 = true ∧
    (writeObject matchFn sw opts).1.count = sw.count ∧
    (writeObject matchFn sw opts).1.numberItems = sw.numberItems ∧
    (writeObject matchFn sw opts).1.values = sw.values ∧
    (writeObject matchFn sw opts).1.hitLimit = sw.hitLimit ∧
    (writeObject matchFn sw opts).1.once = sw.once ∧
    (writeObject matchFn sw opts).1.cursor = sw.cursor ∧
    (writeObject matchFn sw opts).1.limit = sw.limit := by
  rcases hfail with ⟨hig, hg⟩ | hf
  · simp [writeObject, hig, hg]
  · by_cases hgm : (if opts.ignoreGlobMatch then (true, true)
        else globMatch matchFn sw opts.id opts.o).1 = false
    · simp [writeObject, hgm]
    · simp [writeObject, hgm, hf]

/-- Closing the hypothesis of `c6_failed_record_skipped` at a concrete
record whose id fails the glob filter. -/
theorem c6_failed_record_skipped_witness :
    ((false = false) ∧
      (globMatch (fun p v => p = v)
        ((newScanWriter [] [] true (fun _ => false) OutputT.ids 0 "truck1"
          false 0 10 [] [] [] false).get!)
        "truck2" ⟨"", 0, 0, 0⟩).1 = false) ∧
    (writeObject (fun p v => p = v)
      ((newScanWriter [] [] true (fun _ => false) OutputT.ids 0 "truck1"
        false 0 10 [] [] [] false).get!)
      ⟨"truck2", ⟨"", 0, 0, 0⟩, [], 0, false⟩).1.count =
      ((newScanWriter [] [] true (fun _ => false) OutputT.ids 0 "truck1"
        false 0 10 [] [] [] false).get!).count :=
  ⟨⟨rfl, by decide⟩,
    (c6_failed_record_skipped (fun p v => p = v)
      ((newScanWriter [] [] true (fun _ => false) OutputT.ids 0 "truck1"
        false 0 10 [] [] [] false).get!)
      ⟨"truck2", ⟨"", 0, 0, 0⟩, [], 0, false⟩
      (Or.inl ⟨rfl, by decide⟩)).2.1⟩

/-! ## KNN search (`search.go`, `nearestNeighbors`) -/

/-- A candidate yielded by `sw.col.NearestNeighbors` in distance order
from the index (id, object, sparse field values). -/
structure Candidate where
  id : String
  o : GeoObject
  fields : List ℚ
deriving DecidableEq

/-- `iterItem` (search.go:409-414): a collected candidate together with
its distance from the query point. -/
structure IterItem where
  id : String
  o : GeoObject
  fields : List ℚ
  dist : ℚ
deriving DecidableEq

/-- Building an `iterItem`; `distFn` stands for
`o.CalculatedPoint().DistanceTo(center)` on the query point. -/
def mkIterItem (distFn : Candidate → ℚ) (c : Candidate) : IterItem :=
  ⟨c.id, c.o, c.fields, distFn c⟩

/-- The ordering `sort.Slice` is asked to establish in
`nearestNeighbors`: ascending distance. -/
def iterItemLE (a b : IterItem) : Prop := a.dist ≤ b.dist

instance : DecidableRel iterItemLE :=
  fun a b => inferInstanceAs (Decidable (a.dist ≤ b.dist))

instance : IsTotal IterItem iterItemLE := ⟨fun a b => le_total a.dist b.dist⟩

instance : IsTrans IterItem iterItemLE := ⟨fun _ _ _ => le_trans⟩

/-- A candidate passes the KNN collection filters iff it passes
`sw.fieldMatch` and then `sw.globMatch` (search.go:421-427). -/
def nnPass (matchFn : String → String → Bool) (sw : ScanWriter)
    (c : Candidate) : Bool :=
  (fieldMatch sw c.fields c.o).2.2 && (globMatch matchFn sw c.id c.o).1

/-- The collection loop of `nearestNeighbors` (search.go:420-434): the
iterator callback skips candidates failing the field or glob filter,
appends the rest with their distance, stops on a false keep-going flag,
and otherwise continues while fewer than `limit` items are collected. -/
def nnLoop (matchFn : String → String → Bool) (sw : ScanWriter)
    (distFn : Candidate → ℚ) (limit : Nat) :
    List Candidate → List IterItem → List IterItem
  | [], items => items
  | c :: rest, items =>
    if (fieldMatch sw c.fields c.o).2.2 = false then
      nnLoop matchFn sw distFn limit rest items
    else if (globMatch matchFn sw c.id c.o).1 = false then
      nnLoop matchFn sw distFn limit rest items
    else
      let items2 := items ++ [mkIterItem distFn c]
      if (globMatch matchFn sw c.id c.o).2 = false then items2
      else if items2.length < limit then
        nnLoop matchFn sw distFn limit rest items2
      else items2

/-- `nearestNeighbors` (search.go:416-443): collect with
`limit := sw.cursor + sw.limit`, then sort ascending by distance.
`sort.Slice` is an unspecified comparison sort on `dist <`; it is
modelled by insertion sort on `iterItemLE`, and only order-insensitive
facts (sortedness, permutation) are proved about the result. -/
def nearestNeighbors (matchFn : String → String → Bool) (sw : ScanWriter)
    (distFn : Candidate → ℚ) (cands : List Candidate) : List IterItem :=
  List.insertionSort iterItemLE
    (nnLoop matchFn sw distFn (sw.cursor + sw.limit) cands [])

/-- The emission loop of `nearestNeighbors` (search.go:438-442): hands
the sorted items to `iter` in order, stopping after the first false
return; the result records the items `iter` was invoked on. -/
def nnEmit (iter : IterItem → Bool) : List IterItem → List IterItem
  | [] => []
  | it :: rest => if iter it then it :: nnEmit iter rest else [it]

theorem globMatch_keepGoing_false (matchFn : String → String → Bool)
    (sw : ScanWriter) (id : String) (o : GeoObject)
    (h : (globMatch matchFn sw id o).2 = false) :
    sw.globEverything = false ∧ sw.globSingle = true ∧ sw.globPattern = id := by
  cases hge : sw.globEverything
  · cases hgs : sw.globSingle
    · unfold globMatch at h
      rw [if_pos (by rw [hge]; exact Bool.false_ne_true),
        if_neg (by rw [hgs]; exact Bool.false_ne_true)] at h
      split at h <;> simp only [] at h <;> split at h <;> simp at h
    · by_cases hp : sw.globPattern = id
      · exact ⟨rfl, rfl, hp⟩
      · unfold globMatch at h
        rw [if_pos (by rw [hge]; exact Bool.false_ne_true), if_pos hgs,
          if_pos hp] at h
        simp at h
  · unfold globMatch at h
    rw [if_neg (by simp [hge])] at h
    simp at h

theorem globMatch_single_match (matchFn : String → String → Bool)
    (sw : ScanWriter) (id : String) (o : GeoObject)
    (hge : sw.globEverything = false) (hgs : sw.globSingle = true)
    (h : (globMatch matchFn sw id o).1 = true) :
    sw.globPattern = id := by
  unfold globMatch at h
  rw [if_pos (by rw [hge]; exact Bool.false_ne_true), if_pos hgs] at h
  by_cases hp : sw.globPattern = id
  · exact hp
  · rw [if_pos hp] at h; simp at h

/-- What the collection loop of `nearestNeighbors` gathers, relative to
accumulated items: the first `limit - items.length` candidates, in
iterator order, that pass the field and glob filters. The id-uniqueness
hypothesis reflects that a collection iterates each id once; it settles
the single-id glob case, whose early stop can cut the stream only after
the lone possible match. -/
theorem nnLoop_spec (matchFn : String → String → Bool) (sw : ScanWriter)
    (distFn : Candidate → ℚ) (limit : Nat) (cands : List Candidate)
    (items : List IterItem)
    (hnd : (cands.map Candidate.id).Nodup)
    (hlen : items.length < limit) :
    nnLoop matchFn sw distFn limit cands items =
      items ++ ((cands.filter (nnPass matchFn sw)).take
        (limit - items.length)).map (mkIterItem distFn) := by
  induction cands generalizing items with
  | nil => simp [nnLoop]
  | cons c rest ih =>
    rw [List.map_cons, List.nodup_cons] at hnd
    obtain ⟨hcid, hnd'⟩ := hnd
    by_cases hfm : (fieldMatch sw c.fields c.o).2.2 = false
    · have hpass : nnPass matchFn sw c = false := by simp [nnPass, hfm]
      rw [nnLoop, if_pos hfm, List.filter_cons_of_neg (by simp [hpass])]
      exact ih _ hnd' hlen
    · by_cases hgm : (globMatch matchFn sw c.id c.o).1 = false
      · have hpass : nnPass matchFn sw c = false := by simp [nnPass, hgm]
        rw [nnLoop, if_neg (by simp [hfm]), if_pos hgm,
          List.filter_cons_of_neg (by simp [hpass])]
        exact ih _ hnd' hlen
      · have hpass : nnPass matchFn sw c = true := by
          simp only [nnPass, Bool.and_eq_true]
          exact ⟨by simpa [Bool.not_eq_false] using hfm,
            by simpa [Bool.not_eq_false] using hgm⟩
        rw [nnLoop, if_neg (by simp [hfm]), if_neg (by simp [hgm]),
          List.filter_cons_of_pos (by simp [hpass])]
        have hk : limit - items.length = (limit - (items.length + 1)) + 1 := by
          omega
        by_cases hkg : (globMatch matchFn sw c.id c.o).2 = false
        · rw [if_pos hkg]
          obtain ⟨hge, hgs, hpat⟩ :=
            globMatch_keepGoing_false matchFn sw c.id c.o hkg
          have hrest : rest.filter (nnPass matchFn sw) = [] := by
            rw [List.filter_eq_nil_iff]
            intro c' hc' hp'
            have hg' : (globMatch matchFn sw c'.id c'.o).1 = true := by
              have := (Bool.and_eq_true _ _).mp hp'
              exact this.2
            have : sw.globPattern = c'.id :=
              globMatch_single_match matchFn sw c'.id c'.o hge hgs hg'
            exact hcid (by rw [← hpat, this]; exact List.mem_map_of_mem _ hc')
          rw [hrest, hk, List.take_succ_cons, List.take_nil, List.map_cons,
            List.map_nil]
        · rw [if_neg hkg]
          by_cases hlt : (items ++ [mkIterItem distFn c]).length < limit
          · rw [if_pos hlt, ih _ hnd' hlt, hk, List.take_succ_cons,
              List.map_cons]
            simp
          · rw [if_neg hlt]
            have hone : limit - items.length = 1 := by
              simp at hlt
              omega
            rw [hone, List.take_succ_cons, List.take_zero, List.map_cons,
              List.map_nil]

/-- The emission loop invokes `iter` on an in-order initial run of the
sorted items. -/
theorem nnEmit_take (iter : IterItem → Bool) (items : List IterItem) :
    ∃ n, nnEmit iter items = items.take n := by
  induction items with
  | nil => exact ⟨0, rfl⟩
  | cons it rest ih =>
    by_cases hi : iter it = true
    · obtain ⟨n, hn⟩ := ih
      exact ⟨n + 1, by rw [nnEmit, if_pos hi, hn, List.take_succ_cons]⟩
    · exact ⟨1, by rw [nnEmit, if_neg hi, List.take_succ_cons, List.take_zero]⟩

/-- C7. For a NEARBY without radius, the controller collects candidates
from the nearest-neighbour iterator until `cursor + limit` of them have
passed the field and glob filters (the ids of a collection iteration are
distinct, and a user limit is at least 1 after defaulting), sorts the
collected candidates ascending by distance from the query point, and
emits them in that sorted order: the output is sorted under
`iterItemLE`, is a permutation of the first `cursor + limit`
filter-passing candidates, and the emission loop touches an in-order
initial run of it. -/
theorem c7_knn_collect_sort_emit (matchFn : String → String → Bool)
    (sw : ScanWriter) (distFn : Candidate → ℚ) (cands : List Candidate)
    (iter : IterItem → Bool)
    (hnd : (cands.map Candidate.id).Nodup) (hlim : 1 ≤ sw.limit) :
    List.Sorted iterItemLE (nearestNeighbors matchFn sw distFn cands) ∧
    (nearestNeighbors matchFn sw distFn cands).Perm
      (((cands.filter (nnPass matchFn sw)).take (sw.cursor + sw.limit)).map
        (mkIterItem distFn)) ∧
    (∃ n, nnEmit iter (nearestNeighbors matchFn sw distFn cands) =
      (nearestNeighbors matchFn sw distFn cands).take n) := by
  have h0 : (0 : Nat) < sw.cursor + sw.limit := by omega
  refine ⟨List.sorted_insertionSort _ _, ?_, nnEmit_take _ _⟩
  have hspec := nnLoop_spec matchFn sw distFn (sw.cursor + sw.limit) cands []
    hnd (by simpa using h0)
  have hperm : (nearestNeighbors matchFn sw distFn cands).Perm
      (nnLoop matchFn sw distFn (sw.cursor + sw.limit) cands []) :=
    List.perm_insertionSort _ _
  rw [hspec] at hperm
  simpa using hperm

/-- Closing the hypotheses of `c7_knn_collect_sort_emit` at a concrete
KNN run: three distinct ids, limit 2, everything-glob, no predicates. -/
theorem c7_knn_collect_sort_emit_witness :
    (([⟨"a", ⟨"", 0, 0, 0⟩, [3]⟩, ⟨"b", ⟨"", 0, 0, 0⟩, [1]⟩,
        ⟨"c", ⟨"", 0, 0, 0⟩, [2]⟩] : List Candidate).map Candidate.id).Nodup ∧
    1 ≤ ((newScanWriter [] [] true (fun _ => false) OutputT.ids 0 "*" false 0 2
      [] [] [] false).get!).limit ∧
    List.Sorted iterItemLE (nearestNeighbors (fun _ _ => true)
      ((newScanWriter [] [] true (fun _ => false) OutputT.ids 0 "*" false 0 2
        [] [] [] false).get!)
      (fun c => c.fields.headD 0)
      [⟨"a", ⟨"", 0, 0, 0⟩, [3]⟩, ⟨"b", ⟨"", 0, 0, 0⟩, [1]⟩,
       ⟨"c", ⟨"", 0, 0, 0⟩, [2]⟩]) := by
  refine ⟨by decide, by decide, ?_⟩
  exact (c7_knn_collect_sort_emit (fun _ _ => true)
    ((newScanWriter [] [] true (fun _ => false) OutputT.ids 0 "*" false 0 2
      [] [] [] false).get!)
    (fun c => c.fields.headD 0)
    [⟨"a", ⟨"", 0, 0, 0⟩, [3]⟩, ⟨"b", ⟨"", 0, 0, 0⟩, [1]⟩,
     ⟨"c", ⟨"", 0, 0, 0⟩, [2]⟩]
    (fun _ => true) (by decide) (by decide)).1

/-! ## Hooks (part_002, `Hook.Equals` and `cmdSetHook`) -/

/-- A `META key value` pair attached to a hook (`FenceMeta`). -/
structure FenceMeta where
  name : String
  value : String
deriving DecidableEq

/-- The persistent identity of a hook (`Hook`): target collection key,
unique name, ordered endpoint URLs, canonical (name-sorted) metas, the
frozen fence-command tokens (`Message.Values` as strings), and the
`closed` lifecycle flag set by `Hook.Close`. -/
structure Hook where
  key : String
  name : String
  endpoints : List String
  metas : List FenceMeta
  messageValues : List String
  closed : Bool
deriving DecidableEq

/-- `Hook.Equals` (part_002:351-371): equal key and name, same number of
endpoints and metas, pairwise-equal endpoints in order, pairwise-equal
metas (name and value) in order, and equal command token arrays
(`resp.ArrayValue(...).Equals`). -/
def Hook.Equals (h k : Hook) : Bool :=
  if h.key ≠ k.key ∨ h.name ≠ k.name ∨
      h.endpoints.length ≠ k.endpoints.length ∨
      h.metas.length ≠ k.metas.length then false
  else if ¬(h.endpoints.zip k.endpoints).all (fun p => p.1 == p.2) then false
  else if ¬(h.metas.zip k.metas).all
      (fun p => p.1.name == p.2.name && p.1.value == p.2.value) then false
  else h.messageValues == k.messageValues

/-- `Hook.Close` (part_002:406-414): idempotently set the closed flag
(the condition-variable broadcast wakes the manager task). -/
def Hook.close (h : Hook) : Hook :=
  if h.closed then h else { h with closed := true }

/-- Association-list update (model of a Go map write `m[k] = v`). -/
def assocSet {α : Type} : List (String × α) → String → α → List (String × α)
  | [], key, v => [(key, v)]
  | (k, x) :: rest, key, v =>
    if k = key then (key, v) :: rest else (k, x) :: assocSet rest key v

/-- Association-list removal (model of Go `delete(m, k)`). -/
def assocErase {α : Type} : List (String × α) → String → List (String × α)
  | [], _ => []
  | (k, x) :: rest, key =>
    if k = key then rest else (k, x) :: assocErase rest key

/-- The two hook maps the controller keeps in sync: `hooks` by name and
`hookcols` by collection key then name. -/
structure HookRegistry where
  hooks : List (String × Hook)
  hookcols : List (String × List (String × Hook))
deriving DecidableEq

/-- Removing a named hook from the per-collection map
(`delete(c.hookcols[h.Key], h.Name)` guarded by presence). -/
def hookcolsDelete (cols : List (String × List (String × Hook)))
    (key name : String) : List (String × List (String × Hook)) :=
  match assocGet cols key with
  | some hm => assocSet cols key (assocErase hm name)
  | none => cols

/-- Installing a hook in the per-collection map, creating the inner map
when the key is new (part_002:158-163). -/
def hookcolsInsert (cols : List (String × List (String × Hook)))
    (key name : String) (hook : Hook) :
    List (String × List (String × Hook)) :=
  match assocGet cols key with
  | some hm => assocSet cols key (assocSet hm name hook)
  | none => assocSet cols key [(name, hook)]

/-- What `cmdSetHook` did to the registry. -/
inductive SetHookEffect where
  | reusedSignaled
  | replaced (prev : Hook)
  | installed
deriving DecidableEq

/-- The registry-updating tail of `cmdSetHook` (part_002:136-164), after
the new hook has been parsed and built: an existing hook of the same
name is kept (and merely signaled) when `Equals` holds; otherwise it is
closed, dropped from both maps, and the new hook is installed. -/
def setHookFinish (reg : HookRegistry) (name : String) (hook : Hook) :
    HookRegistry × SetHookEffect :=
  match assocGet reg.hooks name with
  | some h =>
    if h.Equals hook then (reg, .reusedSignaled)
    else
      let reg1 : HookRegistry :=
        { hooks := assocErase reg.hooks h.name
          hookcols := hookcolsDelete reg.hookcols h.key h.name }
      ({ hooks := assocSet reg1.hooks name hook
         hookcols := hookcolsInsert reg1.hookcols hook.key name hook },
        .replaced h.close)
  | none =>
    ({ hooks := assocSet reg.hooks name hook
       hookcols := hookcolsInsert reg.hookcols hook.key name hook },
      .installed)

theorem assocGet_assocSet {α : Type} (l : List (String × α)) (key : String)
    (v : α) : assocGet (assocSet l key v) key = some v := by
  induction l with
  | nil => simp [assocSet, assocGet]
  | cons p rest ih =>
    obtain ⟨k, x⟩ := p
    by_cases hk : k = key
    · simp [assocSet, assocGet, hk]
    · simp [assocSet, assocGet, hk, ih]

/-- Reduction of `setHookFinish` when a hook of the same name exists. -/
theorem setHookFinish_eq_found (reg : HookRegistry) (name : String)
    (hook h : Hook) (hfound : assocGet reg.hooks name = some h) :
    setHookFinish reg name hook =
      if Hook.Equals h hook = true then (reg, SetHookEffect.reusedSignaled)
      else
        ({ hooks := assocSet (assocErase reg.hooks h.name) name hook
           hookcols := hookcolsInsert (hookcolsDelete reg.hookcols h.key h.name)
             hook.key name hook },
          SetHookEffect.replaced h.close) := by
  unfold setHookFinish
  rw [hfound]

/-- Lists are equal iff they have equal length and agree pointwise along
their zip (the shape of the source's length-check-then-loop
comparison). -/
theorem zip_all_eq_iff {α : Type} [DecidableEq α] (l₁ l₂ : List α)
    (hlen : l₁.length = l₂.length) :
    ((l₁.zip l₂).all (fun p => p.1 == p.2) = true ↔ l₁ = l₂) := by
  induction l₁ generalizing l₂ with
  | nil =>
    cases l₂ with
    | nil => simp
    | cons b bs => cases hlen
  | cons a as ih =>
    cases l₂ with
    | nil => cases hlen
    | cons b bs =>
      simp only [List.zip_cons_cons, List.all_cons, Bool.and_eq_true, beq_iff_eq]
      rw [ih bs (by simpa using hlen)]
      constructor
      · rintro ⟨rfl, rfl⟩; rfl
      · intro he; injection he with h1 h2; exact ⟨h1, h2⟩

/-- Meta lists are equal iff they have equal length and agree pointwise
on name and value along their zip. -/
theorem metas_zip_all_eq_iff (l₁ l₂ : List FenceMeta)
    (hlen : l₁.length = l₂.length) :
    ((l₁.zip l₂).all
        (fun p => p.1.name == p.2.name && p.1.value == p.2.value) = true ↔
      l₁ = l₂) := by
  induction l₁ generalizing l₂ with
  | nil =>
    cases l₂ with
    | nil => simp
    | cons b bs => cases hlen
  | cons a as ih =>
    cases l₂ with
    | nil => cases hlen
    | cons b bs =>
      simp only [List.zip_cons_cons, List.all_cons, Bool.and_eq_true, beq_iff_eq]
      rw [ih bs (by simpa using hlen)]
      constructor
      · rintro ⟨⟨h1, h2⟩, rfl⟩
        cases a; cases b; cases h1; cases h2; rfl
      · intro he; injection he with h1 h2
        exact ⟨by rw [h1]; exact ⟨rfl, rfl⟩, h2⟩

/-- `Hook.Equals` decides exactly the structural equality the spec
describes: for hooks of equal name, it holds iff key, endpoints (in
order), metas (as stored, i.e. sorted by name) and command tokens all
compare equal. The `closed` lifecycle flag does not participate. -/
theorem Hook_Equals_iff (h k : Hook) (hname : h.name = k.name) :
    (Hook.Equals h k = true ↔
      (h.key = k.key ∧ h.endpoints = k.endpoints ∧ h.metas = k.metas ∧
        h.messageValues = k.messageValues)) := by
  unfold Hook.Equals
  constructor
  · intro he
    by_cases h1 : h.key ≠ k.key ∨ h.name ≠ k.name ∨
        h.endpoints.length ≠ k.endpoints.length ∨ h.metas.length ≠ k.metas.length
    · rw [if_pos h1] at he; cases he
    · rw [if_neg h1] at he
      push_neg at h1
      obtain ⟨hk, _, hel, hml⟩ := h1
      by_cases h2 : (h.endpoints.zip k.endpoints).all (fun p => p.1 == p.2) = true
      · rw [if_neg (by rw [h2]; simp)] at he
        by_cases h3 : (h.metas.zip k.metas).all
            (fun p => p.1.name == p.2.name && p.1.value == p.2.value) = true
        · rw [if_neg (by rw [h3]; simp)] at he
          exact ⟨hk, (zip_all_eq_iff _ _ hel).mp h2,
            (metas_zip_all_eq_iff _ _ hml).mp h3, by simpa using he⟩
        · rw [if_pos (by simpa using h3)] at he; cases he
      · rw [if_pos (by simpa using h2)] at he; cases he
  · rintro ⟨hk, hep, hm, hmv⟩
    rw [if_neg (by push_neg; exact ⟨hk, hname, by rw [hep], by rw [hm]⟩)]
    rw [if_neg (by simp [(zip_all_eq_iff _ _ (by rw [hep])).mpr hep])]
    rw [if_neg (by simp [(metas_zip_all_eq_iff _ _ (by rw [hm])).mpr hm])]
    simpa using hmv

/-- C8. When SETHOOK finds an existing hook of the requested name, the
registry is left unchanged with the prior hook reused and signaled if
and only if the new hook is structurally equal to it; otherwise the
prior hook is closed and the new hook replaces it under that name.
Structural equality is `Hook.Equals`, which (per `Hook_Equals_iff`)
means: same key, same endpoints in order, same stored (name-sorted)
metas, and equal command token arrays. -/
theorem c8_sethook_reuse_iff_equal (reg : HookRegistry) (name : String)
    (hook h : Hook) (hfound : assocGet reg.hooks name = some h) :
    (((setHookFinish reg name hook).1 = reg ∧
        (setHookFinish reg name hook).2 = SetHookEffect.reusedSignaled) ↔
      Hook.Equals h hook = true) ∧
    (Hook.Equals h hook = false →
      (setHookFinish reg name hook).2 = SetHookEffect.replaced h.close ∧
      assocGet (setHookFinish reg name hook).1.hooks name = some hook) ∧
    (h.name = hook.name →
      (Hook.Equals h hook = true ↔
        (h.key = hook.key ∧ h.endpoints = hook.endpoints ∧
          h.metas = hook.metas ∧ h.messageValues = hook.messageValues))) := by
  have heq := setHookFinish_eq_found reg name hook h hfound
  refine ⟨?_, ?_, Hook_Equals_iff h hook⟩
  · constructor
    · rintro ⟨-, heff⟩
      by_cases he : Hook.Equals h hook = true
      · exact he
      · rw [heq, if_neg he] at heff
        cases heff
    · intro he
      rw [heq, if_pos he]
      exact ⟨rfl, rfl⟩
  · intro he
    have he' : ¬Hook.Equals h hook = true := by
      rw [he]; exact Bool.false_ne_true
    rw [heq, if_neg he']
    exact ⟨rfl, assocGet_assocSet _ _ _⟩

/-- Closing the hypothesis of `c8_sethook_reuse_iff_equal` at a concrete
registry holding one hook, re-issued identically: the registry is
unchanged. -/
theorem c8_sethook_reuse_iff_equal_witness :
    assocGet (HookRegistry.mk
        [("h1", ⟨"fleet", "h1", ["http://ep/"], [], ["nearby", "fleet"], false⟩)]
        [("fleet",
          [("h1", ⟨"fleet", "h1", ["http://ep/"], [], ["nearby", "fleet"], false⟩)])]).hooks
        "h1" =
      some ⟨"fleet", "h1", ["http://ep/"], [], ["nearby", "fleet"], false⟩ ∧
    ((setHookFinish (HookRegistry.mk
        [("h1", ⟨"fleet", "h1", ["http://ep/"], [], ["nearby", "fleet"], false⟩)]
        [("fleet",
          [("h1", ⟨"fleet", "h1", ["http://ep/"], [], ["nearby", "fleet"], false⟩)])])
        "h1" ⟨"fleet", "h1", ["http://ep/"], [], ["nearby", "fleet"], false⟩).1 =
      HookRegistry.mk
        [("h1", ⟨"fleet", "h1", ["http://ep/"], [], ["nearby", "fleet"], false⟩)]
        [("fleet",
          [("h1", ⟨"fleet", "h1", ["http://ep/"], [], ["nearby", "fleet"], false⟩)])] ∧
      (setHookFinish (HookRegistry.mk
        [("h1", ⟨"fleet", "h1", ["http://ep/"], [], ["nearby", "fleet"], false⟩)]
        [("fleet",
          [("h1", ⟨"fleet", "h1", ["http://ep/"], [], ["nearby", "fleet"], false⟩)])])
        "h1" ⟨"fleet", "h1", ["http://ep/"], [], ["nearby", "fleet"], false⟩).2 =
        SetHookEffect.reusedSignaled) :=
  ⟨by decide,
    ((c8_sethook_reuse_iff_equal _ "h1"
      ⟨"fleet", "h1", ["http://ep/"], [], ["nearby", "fleet"], false⟩
      ⟨"fleet", "h1", ["http://ep/"], [], ["nearby", "fleet"], false⟩
      (by decide)).1).mpr (by decide)⟩

/-! ## Expiration filtering in spatial search (`search.go`) -/

/-- Modelled from the spec: `Controller.hasExpired` is not among the
provided sources; only its call sites in `search.go` are. Per §4.2 the
expiration index is the two-level map `key → (id → deadline)`
(`c.expires`), and an entry is due once its deadline has reached the
current time (the expirer fires on `deadline ≤ now`). `hasExpired`
reports whether a due (passed) deadline is recorded for `(key, id)`;
absent entries never expire. Instants are modelled as `Nat`. -/
def hasExpired (expires : List (String × List (String × Nat)))
    (key id : String) (now : Nat) : Bool :=
  match assocGet expires key with
  | some m =>
    match assocGet m id with
    | some deadline => decide (deadline ≤ now)
    | none => false
  | none => false

/-- The iterator closure of `cmdNearby` (search.go:369-389): skip the
candidate when it has expired; otherwise compute the distance when
requested (from the index-provided value or from the query point via
`distToQuery`, standing for `o.CalculatedPoint().DistanceTo`) and hand
the candidate to `writeObject`, ignoring the glob match in KNN mode. -/
def nearbyIter (expires : List (String × List (String × Nat))) (key : String)
    (now : Nat) (sDistance : Bool) (distToQuery : GeoObject → ℚ) (knn : Bool)
    (matchFn : String → String → Bool) (sw : ScanWriter) (c : Candidate)
    (dist : Option ℚ) : ScanWriter × Bool :=
  if hasExpired expires key c.id now then (sw, true)
  else
    let distance := if sDistance then
        (match dist with
         | some d => d
         | none => distToQuery c.o)
      else 0
    writeObject matchFn sw
      ⟨c.id, c.o, c.fields, distance, knn⟩

/-- The iterator closure of `cmdWithinOrIntersects` for WITHIN
(search.go:494-504): skip expired candidates, hand the rest to
`writeObject`. -/
def withinIter (expires : List (String × List (String × Nat))) (key : String)
    (now : Nat) (matchFn : String → String → Bool) (sw : ScanWriter)
    (c : Candidate) : ScanWriter × Bool :=
  if hasExpired expires key c.id now then (sw, true)
  else writeObject matchFn sw ⟨c.id, c.o, c.fields, 0, false⟩

/-- The iterator closure of `cmdWithinOrIntersects` for INTERSECTS
(search.go:512-522), textually identical to the WITHIN one. -/
def intersectsIter (expires : List (String × List (String × Nat)))
    (key : String) (now : Nat) (matchFn : String → String → Bool)
    (sw : ScanWriter) (c : Candidate) : ScanWriter × Bool :=
  if hasExpired expires key c.id now then (sw, true)
  else writeObject matchFn sw ⟨c.id, c.o, c.fields, 0, false⟩

/-- C9. Every spatial search (NEARBY, WITHIN, INTERSECTS) excludes a
candidate whose recorded expiration deadline has passed, even though it
is still present in the collection: the iterator leaves the scan writer
untouched (nothing is emitted, no budget is consumed) and tells the
index to continue. -/
theorem c9_search_skips_expired (expires : List (String × List (String × Nat)))
    (key : String) (now : Nat) (sDistance : Bool)
    (distToQuery : GeoObject → ℚ) (knn : Bool)
    (matchFn : String → String → Bool) (sw : ScanWriter) (c : Candidate)
    (dist : Option ℚ) (hex : hasExpired expires key c.id now = true) :
    nearbyIter expires key now sDistance distToQuery knn matchFn sw c dist =
        (sw, true) ∧
    withinIter expires key now matchFn sw c = (sw, true) ∧
    intersectsIter expires key now matchFn sw c = (sw, true) := by
  unfold nearbyIter withinIter intersectsIter
  rw [if_pos hex, if_pos hex]
  exact ⟨rfl, rfl, rfl⟩

/-- Closing the hypothesis of `c9_search_skips_expired` at a concrete
expired entry (deadline 10 ≤ now 11), checking the WITHIN component. -/
theorem c9_search_skips_expired_witness :
    hasExpired [("fleet", [("truck1", 10)])] "fleet" "truck1" 11 = true ∧
    withinIter [("fleet", [("truck1", 10)])] "fleet" 11 (fun _ _ => true)
        ((newScanWriter [] [] true (fun _ => false) OutputT.ids 0 "*" false 0 1
          [] [] [] false).get!)
        ⟨"truck1", ⟨"", 0, 0, 0⟩, []⟩ =
      (((newScanWriter [] [] true (fun _ => false) OutputT.ids 0 "*" false 0 1
          [] [] [] false).get!), true) :=
  ⟨by decide,
    (c9_search_skips_expired [("fleet", [("truck1", 10)])] "fleet" 11 false
      (fun _ => 0) false (fun _ _ => true)
      ((newScanWriter [] [] true (fun _ => false) OutputT.ids 0 "*" false 0 1
        [] [] [] false).get!)
      ⟨"truck1", ⟨"", 0, 0, 0⟩, []⟩ none (by decide)).2.1⟩

/-! ## Point serialization (part_000 `Position.ExternalJSON`,
part_001 RESP POINTS emission) -/

/-- `geojson.Position`: a simple point (`poly.Point`), `X` longitude,
`Y` latitude, `Z` elevation. -/
structure Position where
  X : ℚ
  Y : ℚ
  Z : ℚ
deriving DecidableEq

/-- `Position.ExternalJSON` (part_000:118-124): `fmt` stands for
`strconv.FormatFloat(v, 'f', -1, 64)`. A nonzero `Z` adds a `"z"`
member; otherwise only `"lat"` and `"lon"` are emitted. -/
def Position.ExternalJSON (fmt : ℚ → String) (p : Position) : String :=
  if p.Z ≠ 0 then
    "\x7b\"lat\":" ++ fmt p.Y ++ ",\"lon\":" ++ fmt p.X ++ ",\"z\":" ++
      fmt p.Z ++ "\x7d"
  else
    "\x7b\"lat\":" ++ fmt p.Y ++ ",\"lon\":" ++ fmt p.X ++ "\x7d"

/-- The RESP POINTS emission of `writeObject` (part_001:421-434): a
three-element `[lat, lon, z]` array when the calculated point has a
nonzero `Z`, else a two-element `[lat, lon]` array. -/
def respPointArray (p : Position) : List ℚ :=
  if p.Z ≠ 0 then [p.Y, p.X, p.Z] else [p.Y, p.X]

/-- C10. Point serialization omits the z coordinate exactly when it is
zero, in both output paths: `ExternalJSON` takes its `z`-bearing branch
iff `Z ≠ 0` (and the `z`-less branch otherwise), the RESP POINTS array
has three elements iff `Z ≠ 0`, and a 3-D position whose `Z` is 0
serializes — in both paths — identically to the 2-D position with the
same latitude and longitude. -/
theorem c10_point_z_omitted_iff_zero (fmt : ℚ → String) (p : Position) :
    (p.Z ≠ 0 →
      Position.ExternalJSON fmt p =
        "\x7b\"lat\":" ++ fmt p.Y ++ ",\"lon\":" ++ fmt p.X ++ ",\"z\":" ++
          fmt p.Z ++ "\x7d" ∧
      respPointArray p = [p.Y, p.X, p.Z]) ∧
    (p.Z = 0 →
      Position.ExternalJSON fmt p =
        "\x7b\"lat\":" ++ fmt p.Y ++ ",\"lon\":" ++ fmt p.X ++ "\x7d" ∧
      respPointArray p = [p.Y, p.X]) ∧
    ((respPointArray p).length = 3 ↔ p.Z ≠ 0) ∧
    (p.Z = 0 →
      Position.ExternalJSON fmt p =
          Position.ExternalJSON fmt ⟨p.X, p.Y, 0⟩ ∧
      respPointArray p = respPointArray ⟨p.X, p.Y, 0⟩) := by
  by_cases hz : p.Z = 0
  · refine ⟨fun hnz => absurd hz hnz, ?_, ?_, ?_⟩
    · intro _
      exact ⟨by rw [Position.ExternalJSON, if_neg (by simpa using hz)],
        by rw [respPointArray, if_neg (by simpa using hz)]⟩
    · constructor
      · intro hlen
        rw [respPointArray, if_neg (by simpa using hz)] at hlen
        cases hlen
      · intro hnz; exact absurd hz hnz
    · intro _
      constructor
      · rw [Position.ExternalJSON, if_neg (by simpa using hz),
          Position.ExternalJSON, if_neg (by simp)]
      · rw [respPointArray, if_neg (by simpa using hz),
          respPointArray, if_neg (by simp)]
  · refine ⟨?_, fun hc => absurd hc hz, ?_, fun hc => absurd hc hz⟩
    · intro _
      exact ⟨by rw [Position.ExternalJSON, if_pos (by simpa using hz)],
        by rw [respPointArray, if_pos (by simpa using hz)]⟩
    · constructor
      · intro _; exact hz
      · intro _
        rw [respPointArray, if_pos (by simpa using hz)]
        rfl

/-- Closing the implications of `c10_point_z_omitted_iff_zero` at
concrete 3-D and flat points. -/
theorem c10_point_z_omitted_iff_zero_witness :
    ((3 : ℚ) ≠ 0 ∧ respPointArray ⟨-112, 33, 3⟩ = [33, -112, 3]) ∧
    ((0 : ℚ) = 0 ∧ respPointArray ⟨-112, 33, 0⟩ = [33, -112]) :=
  ⟨⟨by decide,
      ((c10_point_z_omitted_iff_zero (fun _ => "") ⟨-112, 33, 3⟩).1
        (by decide)).2⟩,
    ⟨rfl,
      ((c10_point_z_omitted_iff_zero (fun _ => "") ⟨-112, 33, 0⟩).2.1
        rfl).2⟩⟩

end Tile38
